import Mathlib

/-!
# Verification of the time-tracking converter core

A shallow embedding, in Lean 4, of the date/time parsing and weekly
aggregation pipeline of the time-tracking converter repository
(`src/utils/timeUtils.ts`, `src/utils/excelUtils.ts`,
`src/utils/transformUtils.ts`).

Conventions of the embedding:
* JavaScript numbers are modelled as exact rationals (`ℚ`) where fractional
  values occur, and as `ℤ`/`ℕ` where the source only ever holds integers.
* A JavaScript `Date` is modelled as its instant, measured in minutes since
  the epoch (`ℚ`); an invalid `Date` (`NaN`) is `none` in an `Option`.
* Fallible parsing returns `Option`; `none` models JavaScript `null`.
* The third-party spreadsheet codec (the `xlsx` library) and the generic
  `new Date(string)` parser are external collaborators: they are either
  modelled from the spec (the SSF time decoder, needed by a range claim)
  or passed in as parameters (the serial-date decoder and the generic
  date parser, whose exact values no claim depends on).
-/

set_option linter.unusedVariables false

namespace TimeTracking

/-- A raw spreadsheet cell value as seen by the normalizers: JavaScript
`null`, `undefined`, a number, a string, a JS `Date` object (valid instant
or invalid), or any other value. -/
inductive CellValue where
  | null
  | undef
  | num (q : ℚ)
  | str (s : String)
  | jsdate (t : Option ℚ)
  | other
  deriving DecidableEq

/-- The emptiness test used by both normalizers and the row extractor:
`value === '' || value === null || value === undefined`. -/
def isEmptyCell : CellValue → Bool
  | CellValue.null => true
  | CellValue.undef => true
  | CellValue.str s => s = ""
  | _ => false

/-- JavaScript whitespace characters, as matched by `\s` in the source's
regular expressions and removed by `String.prototype.trim` (the common
ASCII whitespace plus the no-break space; the exotic Unicode space
characters never occur in spreadsheet cells and are omitted). -/
def isJsWs (c : Char) : Bool :=
  c = ' ' ∨ c = '\t' ∨ c = '\n' ∨ c = '\r' ∨ c = '\x0b' ∨ c = '\x0c' ∨ c = ' '

/-- `String.prototype.trim`. -/
def jsTrim (s : String) : String :=
  String.mk (((s.data.dropWhile isJsWs).reverse.dropWhile isJsWs).reverse)

/-- `String.prototype.replace(',', '.')`: replaces only the first comma. -/
def replaceFirstComma : List Char → List Char
  | [] => []
  | ',' :: r => '.' :: r
  | c :: r => c :: replaceFirstComma r

/-- `parseInt(g, 10)` on a regex group known to consist of decimal digits:
its decimal value. -/
def digitsToNat (l : List Char) : ℕ :=
  l.foldl (fun a c => 10 * a + (c.toNat - Char.toNat '0')) 0

/-- Matcher for the source regex `/^\s*(\d{1,2})\.(\d{1,2})\.(\d{2}|\d{4})\s*$/`
(the Norwegian `DD.MM.YY` / `DD.MM.YYYY` date shape).  Because each digit
group is followed by a non-digit, the regex matches exactly when the
maximal digit runs have the required lengths. -/
def matchDMY (s : String) : Option (List Char × List Char × List Char) :=
  let l := s.data.dropWhile isJsWs
  let p1 := l.span Char.isDigit
  if p1.1.length = 0 ∨ p1.1.length > 2 then none else
  match p1.2 with
  | '.' :: r2 =>
    let p2 := r2.span Char.isDigit
    if p2.1.length = 0 ∨ p2.1.length > 2 then none else
    match p2.2 with
    | '.' :: r4 =>
      let p3 := r4.span Char.isDigit
      if (p3.1.length = 2 ∨ p3.1.length = 4) ∧ p3.2.dropWhile isJsWs = []
      then some (p1.1, p2.1, p3.1) else none
    | _ => none
  | _ => none

/-- Matcher for the source regex `/^\s*(\d{1,2})[.:](\d{2})\s*$/`
(`H(H):MM` or `H(H).MM` time shape). -/
def matchHM (s : String) : Option (List Char × List Char) :=
  let l := s.data.dropWhile isJsWs
  let p1 := l.span Char.isDigit
  if p1.1.length = 0 ∨ p1.1.length > 2 then none else
  match p1.2 with
  | '.' :: r2 =>
    let p2 := r2.span Char.isDigit
    if p2.1.length = 2 ∧ p2.2.dropWhile isJsWs = [] then some (p1.1, p2.1) else none
  | ':' :: r2 =>
    let p2 := r2.span Char.isDigit
    if p2.1.length = 2 ∧ p2.2.dropWhile isJsWs = [] then some (p1.1, p2.1) else none
  | _ => none

/-- Matcher for the fallback source regex `/^\s*(\d{1,2})\s*$/`
(a bare 1-2 digit hour). -/
def matchHOnly (s : String) : Option (List Char) :=
  let l := s.data.dropWhile isJsWs
  let p1 := l.span Char.isDigit
  if (p1.1.length = 1 ∨ p1.1.length = 2) ∧ p1.2.dropWhile isJsWs = []
  then some p1.1 else none

/-- `Math.round`: round half toward positive infinity. -/
def jsRound (q : ℚ) : ℤ := ⌊q + 1 / 2⌋

/-- Modelled from the spec: the time fields of `XLSX.SSF.parse_date_code`,
the external spreadsheet codec's serial decoder, which the repository calls
but does not contain ("convert to hours/minutes via the format's
time-decoding rule").  Per the codec: decoding fails outside the format's
valid serial range `[0, 2958465]`; otherwise the day fraction is turned
into a second count (with a carry when the fractional remainder exceeds
`0.9999`, wrapping at midnight) and split into hour/minute/second fields,
of which the hour is always in `0..23` and the minute in `0..59`. -/
def ssfParseTimeHM (v : ℚ) : Option (ℕ × ℕ) :=
  if v < 0 ∨ v > 2958465 then none
  else
    let frac : ℚ := v - ⌊v⌋
    let time0 : ℕ := (⌊86400 * frac⌋).toNat
    let u : ℚ := 86400 * frac - time0
    let time : ℕ :=
      if u > 9999 / 10000 then (if time0 + 1 = 86400 then 0 else time0 + 1) else time0
    some (time / 60 / 60, (time / 60) % 60)

/-- `parseTimeToMinutes` (`src/utils/timeUtils.ts`, lines 11-52; the same
code appears as `parseExcelTime` in `src/utils/excelUtils.ts`): normalize a
raw cell value to minutes since midnight, or `null`.
`Number.isFinite(parsed.H/M)` is always true in the model, as the modelled
decoder only produces (finite) naturals; likewise the `Number.isFinite`
checks on the `parseInt` results of all-digit regex groups. -/
def parseTimeToMinutes (value : CellValue) : Option ℤ :=
  if isEmptyCell value then none else
  match value with
  | CellValue.num q =>
    match ssfParseTimeHM q with
    | some hm => some (hm.1 * 60 + hm.2)
    | none => if 0 ≤ q ∧ q ≤ 1 then some (jsRound (q * 1440)) else none
  | CellValue.str s =>
    let raw := jsTrim s
    if raw.data = [] then none else
    let normalized := String.mk (replaceFirstComma raw.data)
    let hm : Option (ℕ × ℕ) :=
      match matchHM normalized with
      | some p => some (digitsToNat p.1, digitsToNat p.2)
      | none =>
        match matchHOnly normalized with
        | some g => some (digitsToNat g, 0)
        | none => none
    match hm with
    | none => none
    | some p =>
      if p.1 > 23 then none
      else if p.2 > 59 then none
      else some (p.1 * 60 + p.2)
  | _ => none

/-- Days from the epoch 1970-01-01 of the civil date `(y, m, d)` (proleptic
Gregorian calendar; the standard era-based conversion).  Used to model the
instant of `new Date(year, month, day)` at local midnight. -/
def daysFromCivil (y : ℤ) (m d : ℕ) : ℤ :=
  let y2 := if m ≤ 2 then y - 1 else y
  let era := (if 0 ≤ y2 then y2 else y2 - 399) / 400
  let yoe := y2 - era * 400
  let mp : ℤ := ((m : ℤ) + 9) % 12
  let doy := (153 * mp + 2) / 5 + (d : ℤ) - 1
  let doe := yoe * 365 + yoe / 4 - yoe / 100 + doy
  era * 146097 + doe - 719468

/-- The `Date(year, ...)` constructor quirk: an integer year in `0..99` is
treated as `1900 + year`. -/
def jsYearAdjust (y : ℤ) : ℤ := if 0 ≤ y ∧ y ≤ 99 then 1900 + y else y

/-- The instant (minutes since epoch) of `new Date(year, monthIndex, day)`
for an in-range 0-based `monthIndex` and day: local midnight of that civil
date, with the constructor's two-digit-year quirk. -/
def mkJsDateInstant (year : ℤ) (monthIndex day : ℕ) : ℚ :=
  ((1440 * daysFromCivil (jsYearAdjust year) (monthIndex + 1) day : ℤ) : ℚ)

/-- The source's leap-year rule:
`(year % 4 === 0 && year % 100 !== 0) || year % 400 === 0`. -/
def isLeapYear (year : ℤ) : Bool :=
  (year % 4 = 0 ∧ year % 100 ≠ 0) ∨ year % 400 = 0

/-- The source's `monthLengths` array
`[31, isLeapYear ? 29 : 28, 31, 30, 31, 30, 31, 31, 30, 31, 30, 31]`. -/
def monthLengths (leap : Bool) : List ℕ :=
  [31, if leap then 29 else 28, 31, 30, 31, 30, 31, 31, 30, 31, 30, 31]

/-- The length of 1-based `month` in `year` per the source's table (spec:
"the correct length of that month/year" under the Gregorian rule). -/
def gregorianMonthLength (year : ℤ) (month : ℕ) : ℕ :=
  (monthLengths (isLeapYear year)).getD (month - 1) 0

/-- The validation-and-construction tail of `parseExcelDate`'s Norwegian
string branch (`src/utils/excelUtils.ts`, lines 51-66), applied to the
three matched digit groups: strict range checks, then
`new Date(year, month - 1, day)`. -/
def validateDMY (g : List Char × List Char × List Char) : Option ℚ :=
  let day := digitsToNat g.1
  let month := digitsToNat g.2.1
  let year0 := digitsToNat g.2.2
  let year : ℤ := if g.2.2.length = 2 then 2000 + (year0 : ℤ) else (year0 : ℤ)
  if month < 1 ∨ month > 12 then none
  else if day < 1 then none
  else if day > gregorianMonthLength year month then none
  else some (mkJsDateInstant year (month - 1) day)

/-- `parseExcelDate` (`src/utils/excelUtils.ts`, lines 35-77): normalize a
raw cell value to a (valid) date, or `null`.  The two external
collaborators are parameters: `ssfDate` models the numeric branch's
`XLSX.SSF.parse_date_code` + `new Date(y, m-1, d)` composite, and
`generic` models the final `new Date(value)` fallback; both return a valid
instant or `none`, matching the source's `isNaN` guards. -/
def parseExcelDate (ssfDate : ℚ → Option ℚ) (generic : CellValue → Option ℚ)
    (value : CellValue) : Option ℚ :=
  if isEmptyCell value then none else
  match value with
  | CellValue.num q => ssfDate q
  | CellValue.str s =>
    match matchDMY (jsTrim s) with
    | some g => validateDMY g
    | none => generic value
  | CellValue.jsdate t => t
  | _ => generic value

/-- `ParsedRow` (`src/utils/excelUtils.ts`): one extracted time entry.
`date = none` models `null`; `date = some none` models an invalid JS
`Date`; `date = some (some t)` a valid date at instant `t` (minutes since
epoch). -/
structure ParsedRow where
  date : Option (Option ℚ)
  startTimeMinutes : Option ℤ
  endTimeMinutes : Option ℤ
  deriving DecidableEq

/-- The worksheet abstraction the row extractor needs: the decoded
`!ref` range's start and end row (`none` models a missing `!ref`, which
the source defaults to `A1:A1`, i.e. rows `(0, 0)`), and the raw value of
the cell at a 0-based (row, column) position (`''` for an absent cell, as
in the source's `cell ? cell.v : ''`). -/
structure Worksheet where
  refRange : Option (ℕ × ℕ)
  cell : ℕ → ℕ → CellValue

/-- The extractor's skip test (`src/utils/excelUtils.ts`, lines 166-169):
all three raw cell values of row `r` (date col 8, start col 13, end col 19)
are empty/null/undefined. -/
def rowIsAllEmpty (ws : Worksheet) (r : ℕ) : Bool :=
  isEmptyCell (ws.cell r 8) && isEmptyCell (ws.cell r 13) && isEmptyCell (ws.cell r 19)

/-- The row the extractor pushes for a non-skipped row `r`
(`src/utils/excelUtils.ts`, lines 174-178). -/
def extractRow (ssfDate : ℚ → Option ℚ) (generic : CellValue → Option ℚ)
    (ws : Worksheet) (r : ℕ) : ParsedRow :=
  { date := (parseExcelDate ssfDate generic (ws.cell r 8)).map some
    startTimeMinutes := parseTimeToMinutes (ws.cell r 13)
    endTimeMinutes := parseTimeToMinutes (ws.cell r 19) }

/-- The row-extraction loop of `readFile` (`src/utils/excelUtils.ts`,
lines 140-179): iterate rows `max 12 range.s.r .. range.e.r`, skip a row
only when all three raw cells are empty, otherwise push the parsed row.
The binary decoding of the uploaded file into the worksheet is the
external codec and is not part of the loop. -/
def readFileRows (ssfDate : ℚ → Option ℚ) (generic : CellValue → Option ℚ)
    (ws : Worksheet) : List ParsedRow :=
  let sr := (ws.refRange.getD (0, 0)).1
  let er := (ws.refRange.getD (0, 0)).2
  let startRow := max 12 sr
  (List.range' startRow (er + 1 - startRow)).filterMap fun r =>
    if rowIsAllEmpty ws r then none
    else some (extractRow ssfDate generic ws r)

/-- `FilteredRow` (`src/utils/timeUtils.ts`): a parsed row paired with its
resolved (valid) date. -/
structure FilteredRow where
  row : ParsedRow
  date : ℚ
  deriving DecidableEq

/-- `filterRowsToWeek` (`src/utils/timeUtils.ts`, lines 138-151).  The
`weekStartIso` string argument is modelled as `none` for the falsy empty
string and `some w` for a date string resolving to instant `w`; `dayjs`
instant comparisons (`isSame`/`isAfter`/`isBefore` with no unit) are exact
comparisons of the instants, and `add(7, 'day')` adds `7 * 1440` minutes
(the model, like the source per the spec, is timezone-naive). -/
def filterRowsToWeek (rows : List ParsedRow) (weekStartIso : Option ℚ) :
    List FilteredRow :=
  match weekStartIso with
  | none => []
  | some start =>
    let endT := start + 7 * 1440
    (rows.filterMap fun r =>
      match r.date with
      | none => none
      | some d =>
        match d with
        | some t => some ({ row := r, date := t } : FilteredRow)
        | none => none)
    |>.filter fun fr =>
      if fr.date = start ∨ (start < fr.date ∧ fr.date < endT) then true else false

/-- `getValidDates` (`src/utils/timeUtils.ts`, lines 156-160): all valid
resolved dates of the rows. -/
def getValidDates (rows : List ParsedRow) : List ℚ :=
  rows.filterMap fun r =>
    match r.date with
    | some (some t) => some t
    | _ => none

/-- `WeekInfo` (`src/utils/timeUtils.ts`). -/
structure WeekInfo where
  weekNum : ℕ
  year : ℤ

/-- `getWeekInfo` applied to the always-valid current-Monday date
(`src/utils/timeUtils.ts`, lines 106-114).  The ISO week-number and
ISO week-year computations are `dayjs` plugin internals (external
collaborator) and are passed in as parameters `isoW`/`isoY` on the
instant; the validity guard is vacuous for the instant produced by
`getCurrentWeekMonday`. -/
def getWeekInfo (isoW : ℚ → ℕ) (isoY : ℚ → ℤ) (d : ℚ) : WeekInfo :=
  { weekNum := isoW d, year := isoY d }

/-- `String(n).padStart(2, '0')`. -/
def padStart2 (s : String) : String :=
  if s.length ≥ 2 then s else if s.length = 1 then "0" ++ s else "00"

/-- The warning template of `checkCurrentWeekInFile`
(`src/utils/timeUtils.ts`, line 185). -/
def currentWeekWarning (wi : WeekInfo) : String :=
  "⚠️ Warning: The current week (" ++ toString wi.year ++ "-W" ++
    padStart2 (toString wi.weekNum) ++
    ") is not present in the uploaded file. You may have chosen the wrong file."

/-- `checkCurrentWeekInFile` (`src/utils/timeUtils.ts`, lines 166-188).
"Today" enters through `getCurrentWeekMonday()`; its result, the instant
of the current ISO week's Monday, is the `currentMonday` parameter, and
the `dayjs` ISO week computations are the `isoW`/`isoY` parameters. -/
def checkCurrentWeekInFile (isoW : ℚ → ℕ) (isoY : ℚ → ℤ) (currentMonday : ℚ)
    (rows : List ParsedRow) : Bool × Option String :=
  let dates := getValidDates rows
  if dates.isEmpty then (false, none)
  else
    let weekStart := currentMonday
    let weekEnd := weekStart + 7 * 1440
    let hasCurrentWeek := dates.any fun d =>
      if d = weekStart ∨ (weekStart < d ∧ d < weekEnd) then true else false
    if hasCurrentWeek then (true, none)
    else (false, some (currentWeekWarning (getWeekInfo isoW isoY currentMonday)))

/-- `Math.max` on two JS numbers (rationals in the model). -/
def jsMax (a b : ℚ) : ℚ := if a ≤ b then b else a

/-- `Math.max` on integers. -/
def jsMaxI (a b : ℤ) : ℤ := if a ≤ b then b else a

/-- `Math.min` on integers. -/
def jsMinI (a b : ℤ) : ℤ := if a ≤ b then a else b

/-- `calculateHours` (`src/utils/timeUtils.ts` in its final form; shown at
lines 234-241 of the corresponding source part): duration in hours from
start/end minutes, overnight-normalized; `0` when either time is null. -/
def calculateHours (startMinutes endMinutes : Option ℤ) : ℚ :=
  match startMinutes, endMinutes with
  | some s, some e =>
    let diff := e - s
    let diff2 := if diff < 0 then diff + 24 * 60 else diff
    jsMax 0 ((diff2 : ℚ) / 60)
  | _, _ => 0

/-- A value the day accumulator can hold: zero, or a positive whole number
of minutes divided by 60.  (Every contribution the accumulation loop adds
has this shape.) -/
def granular (x : ℚ) : Prop := x = 0 ∨ ∃ k : ℕ, 1 ≤ k ∧ x = (k : ℚ) / 60

/-- `date.diff(weekStart, 'day')`: the difference of the two instants in
days, truncated toward zero (dayjs's `absFloor`). -/
def jsDayDiff (t w : ℚ) : ℤ :=
  let q := (t - w) / 1440
  if q < 0 then ⌈q⌉ else ⌊q⌋

/-- `Math.max(0, Math.min(6, dayDiff))`, as an index into the 7 day slots. -/
def clampDayIndex (z : ℤ) : Fin 7 :=
  ⟨(jsMaxI 0 (jsMinI 6 z)).toNat, by simp only [jsMaxI, jsMinI]; split_ifs <;> omega⟩

/-- One iteration of the accumulation loop of `transformToDynamics`
(`src/utils/transformUtils.ts`): bucket the row's hours into its clamped
day slot.  A contribution is added only when the computed hours are `> 0`
(`Number.isFinite(hours)` is always true of a rational). -/
def accumStep (w : ℚ) (totals : Fin 7 → ℚ) (fr : FilteredRow) : Fin 7 → ℚ :=
  let dayIndex := clampDayIndex (jsDayDiff fr.date w)
  let hours := calculateHours fr.row.startTimeMinutes fr.row.endTimeMinutes
  if hours > 0 then Function.update totals dayIndex (totals dayIndex + hours)
  else totals

/-- The 7 per-day raw totals after the loop: fold `accumStep` over the
rows starting from the all-zero accumulator. -/
def rawTotalsByDay (rows : List FilteredRow) (w : ℚ) : Fin 7 → ℚ :=
  rows.foldl (accumStep w) (fun _ => 0)

/-- `normalize`, i.e. `Number(n.toFixed(2))` on the nonnegative totals it
is applied to: round half up to 2 decimal places (JS numbers are modelled
as exact rationals). -/
def toFixed2 (n : ℚ) : ℚ := (⌊n * 100 + 1 / 2⌋ : ℚ) / 100

/-- The post-loop normalization pass of `transformToDynamics`:
`totalsByDay[i] = totalsByDay[i] > 0 ? normalize(totalsByDay[i]) : 0`. -/
def roundedTotalsByDay (rows : List FilteredRow) (w : ℚ) : Fin 7 → ℚ :=
  fun i =>
    let t := rawTotalsByDay rows w i
    if t > 0 then toFixed2 t else 0

/-- A Dynamics output row: the four fixed metadata strings plus, per day
slot, an hours cell (`some h` a numeric cell, `none` the empty-string
cell) and a comment cell. -/
structure DynamicsRow where
  LineNum : String
  ProjectDataAreaId : String
  ProjId : String
  ACTIVITYNUMBER : String
  hours : Fin 7 → Option ℚ
  comments : Fin 7 → String

/-- Row 1 of `transformToDynamics` (work): day cells are initialized empty
and overwritten exactly when the day's total is `> 0`, which per cell is
the conditional below. -/
def dynWorkRow (rows : List FilteredRow) (w : ℚ) : DynamicsRow :=
  { LineNum := "1.0000000000000000"
    ProjectDataAreaId := "110"
    ProjId := "11011127"
    ACTIVITYNUMBER := "A110015929"
    hours := fun i =>
      if roundedTotalsByDay rows w i > 0 then some (toFixed2 (roundedTotalsByDay rows w i))
      else none
    comments := fun i =>
      if roundedTotalsByDay rows w i > 0 then "Development" else "" }

/-- Row 2 of `transformToDynamics` (lunch): `0.5` and `'Lunsj'` exactly on
the days whose work total is `> 0`. -/
def dynLunchRow (rows : List FilteredRow) (w : ℚ) : DynamicsRow :=
  { LineNum := "2.0000000000000000"
    ProjectDataAreaId := "110"
    ProjId := "11011127"
    ACTIVITYNUMBER := "A110015932"
    hours := fun i =>
      if roundedTotalsByDay rows w i > 0 then some (1 / 2) else none
    comments := fun i =>
      if roundedTotalsByDay rows w i > 0 then "Lunsj" else "" }

/-- `transformToDynamics` (`src/utils/transformUtils.ts`): the work row
followed by the lunch row.  The `weekStartIso` string is modelled by the
instant `w` it resolves to. -/
def transformToDynamics (rows : List FilteredRow) (w : ℚ) : List DynamicsRow :=
  [dynWorkRow rows w, dynLunchRow rows w]

/-! ## Helper lemmas -/

/-- The membership test the source writes as
`isSame(start) || (isAfter(start) && isBefore(end))` is exactly the
closed-open interval test. -/
theorem window_mem_iff (w t : ℚ) :
    (t = w ∨ (w < t ∧ t < w + 7 * 1440)) ↔ (w ≤ t ∧ t < w + 7 * 1440) := by
  constructor
  · rintro (rfl | ⟨h1, h2⟩)
    · exact ⟨le_refl _, by linarith⟩
    · exact ⟨le_of_lt h1, h2⟩
  · rintro ⟨h1, h2⟩
    rcases eq_or_lt_of_le h1 with h | h
    · exact Or.inl h.symm
    · exact Or.inr ⟨h, h2⟩

/-- `jsMax` agrees with the lattice `max` on ℚ. -/
theorem jsMax_eq_max (a b : ℚ) : jsMax a b = max a b := by
  unfold jsMax
  split_ifs with h
  · exact (max_eq_right h).symm
  · exact (max_eq_left (le_of_not_le h)).symm

/-! ## C2 and C10: calculateHours -/

/-- C2: for start/end minutes in `[0, 1439]`, `calculateHours` is the
positive-modulo difference `((end - start) mod 1440) / 60`; concretely
`calculateHours 1320 360 = 8` (overnight) and `calculateHours 540 540 = 0`;
a null argument on either side yields `0`. -/
theorem calculateHours_mod_spec :
    (∀ s e : ℤ, 0 ≤ s → s ≤ 1439 → 0 ≤ e → e ≤ 1439 →
      calculateHours (some s) (some e) = (((e - s) % 1440 : ℤ) : ℚ) / 60) ∧
    calculateHours (some 1320) (some 360) = 8 ∧
    calculateHours (some 540) (some 540) = 0 ∧
    (∀ x, calculateHours none x = 0) ∧ (∀ x, calculateHours x none = 0) := by
  refine ⟨?_, by norm_num [calculateHours, jsMax], by norm_num [calculateHours, jsMax],
    fun x => rfl, fun x => by cases x <;> rfl⟩
  intro s e hs1 hs2 he1 he2
  show jsMax 0 (((if e - s < 0 then e - s + 24 * 60 else e - s : ℤ) : ℚ) / 60) = _
  rw [jsMax_eq_max]
  have h1 : (if e - s < 0 then e - s + 24 * 60 else e - s) = (e - s) % 1440 := by
    split_ifs with h <;> omega
  rw [h1]
  have h0 : (0 : ℤ) ≤ (e - s) % 1440 := Int.emod_nonneg _ (by norm_num)
  exact max_eq_right (div_nonneg (by exact_mod_cast h0) (by norm_num))

/-- Witness for `calculateHours_mod_spec`. -/
theorem calculateHours_mod_spec_witness :
    calculateHours (some 600) (some 1000) = ((((1000 : ℤ) - 600) % 1440 : ℤ) : ℚ) / 60 :=
  calculateHours_mod_spec.1 600 1000 (by norm_num) (by norm_num) (by norm_num) (by norm_num)

/-- C10: for valid start/end minutes the duration is in `[0, 24)` and is
zero exactly when the two times coincide. -/
theorem calculateHours_bounds :
    ∀ s e : ℤ, 0 ≤ s → s ≤ 1439 → 0 ≤ e → e ≤ 1439 →
      0 ≤ calculateHours (some s) (some e) ∧
      calculateHours (some s) (some e) < 24 ∧
      (calculateHours (some s) (some e) = 0 ↔ s = e) := by
  intro s e hs1 hs2 he1 he2
  have hred : calculateHours (some s) (some e) =
      max 0 (((if e - s < 0 then e - s + 24 * 60 else e - s : ℤ) : ℚ) / 60) := by
    rw [← jsMax_eq_max]; rfl
  have hb : 0 ≤ (if e - s < 0 then e - s + 24 * 60 else e - s) ∧
      (if e - s < 0 then e - s + 24 * 60 else e - s) ≤ 1439 := by
    split_ifs <;> omega
  have hnn : (0 : ℚ) ≤ ((if e - s < 0 then e - s + 24 * 60 else e - s : ℤ) : ℚ) / 60 :=
    div_nonneg (by exact_mod_cast hb.1) (by norm_num)
  rw [hred, max_eq_right hnn]
  refine ⟨hnn, ?_, ?_⟩
  · rw [div_lt_iff₀ (by norm_num : (0 : ℚ) < 60)]
    have hc : ((if e - s < 0 then e - s + 24 * 60 else e - s : ℤ) : ℚ) ≤ 1439 := by
      exact_mod_cast hb.2
    linarith
  · constructor
    · intro h
      have hz0 : ((if e - s < 0 then e - s + 24 * 60 else e - s : ℤ) : ℚ) = 0 := by
        rcases div_eq_zero_iff.mp h with h' | h'
        · exact h'
        · norm_num at h'
      have hz : (if e - s < 0 then e - s + 24 * 60 else e - s) = 0 := by exact_mod_cast hz0
      split_ifs at hz <;> omega
    · intro h
      subst h
      norm_num

/-- Witness for `calculateHours_bounds`. -/
theorem calculateHours_bounds_witness :
    0 ≤ calculateHours (some 1320) (some 360) ∧
      calculateHours (some 1320) (some 360) < 24 ∧
      (calculateHours (some 1320) (some 360) = 0 ↔ (1320 : ℤ) = 360) :=
  calculateHours_bounds 1320 360 (by norm_num) (by norm_num) (by norm_num) (by norm_num)

/-! ## C3: filterRowsToWeek -/

/-- C3: `filterRowsToWeek` drops null/invalid dates and keeps a valid date
exactly when it lies in the closed-open window `[weekStart, weekStart + 7
days)`; a row dated exactly on `weekStart` is kept, one dated exactly
`weekStart + 7 days` is dropped, and one dated `weekStart + 6 days 23:59`
is kept. -/
theorem filterRowsToWeek_window :
    (∀ (rows : List ParsedRow) (w : ℚ),
      filterRowsToWeek rows (some w) = rows.filterMap fun r =>
        match r.date with
        | some (some t) =>
          if w ≤ t ∧ t < w + 7 * 1440 then some ({ row := r, date := t } : FilteredRow)
          else none
        | _ => none) ∧
    (∀ w : ℚ, filterRowsToWeek [⟨some (some w), none, none⟩] (some w) =
      [⟨⟨some (some w), none, none⟩, w⟩]) ∧
    (∀ w : ℚ, filterRowsToWeek [⟨some (some (w + 7 * 1440)), none, none⟩] (some w) = []) ∧
    (∀ w : ℚ, filterRowsToWeek [⟨some (some (w + 6 * 1440 + 1439)), none, none⟩] (some w) =
      [⟨⟨some (some (w + 6 * 1440 + 1439)), none, none⟩, w + 6 * 1440 + 1439⟩]) ∧
    (∀ rows, filterRowsToWeek rows none = []) := by
  have hmain : ∀ (rows : List ParsedRow) (w : ℚ),
      filterRowsToWeek rows (some w) = rows.filterMap fun r =>
        match r.date with
        | some (some t) =>
          if w ≤ t ∧ t < w + 7 * 1440 then some ({ row := r, date := t } : FilteredRow)
          else none
        | _ => none := by
    intro rows w
    induction rows with
    | nil => rfl
    | cons r rest ih =>
      rcases hd : r.date with _ | od
      · simpa [filterRowsToWeek, List.filterMap_cons, hd] using ih
      · rcases od with _ | t
        · simpa [filterRowsToWeek, List.filterMap_cons, hd] using ih
        · simp only [filterRowsToWeek, List.filterMap_cons, hd, List.filter_cons] at ih ⊢
          by_cases hin : w ≤ t ∧ t < w + 7 * 1440
          · have hp : t = w ∨ (w < t ∧ t < w + 7 * 1440) := (window_mem_iff w t).mpr hin
            simp only [if_pos hp, if_pos hin]
            simpa using ih
          · have hp : ¬(t = w ∨ (w < t ∧ t < w + 7 * 1440)) :=
              fun hc => hin ((window_mem_iff w t).mp hc)
            simp only [if_neg hp, if_neg hin]
            simpa using ih
  refine ⟨hmain, ?_, ?_, ?_, fun rows => rfl⟩
  · intro w
    rw [hmain]
    simp
  · intro w
    rw [hmain]
    have : ¬(w ≤ w + 7 * 1440 ∧ w + 7 * 1440 < w + 7 * 1440) := by
      rintro ⟨-, h⟩; exact absurd h (lt_irrefl _)
    simp [this]
  · intro w
    rw [hmain]
    have : w ≤ w + 6 * 1440 + 1439 ∧ w + 6 * 1440 + 1439 < w + 7 * 1440 := by
      constructor <;> linarith
    simp [this]

/-- Witness for `filterRowsToWeek_window`. -/
theorem filterRowsToWeek_window_witness :
    filterRowsToWeek [⟨some (some 0), none, none⟩] (some 0) =
      [⟨⟨some (some 0), none, none⟩, 0⟩] := by
  have h := filterRowsToWeek_window.2.1 0
  simpa using h

/-! ## Granularity of the accumulated totals

Every contribution the loop adds is a positive whole number of minutes
divided by 60, so a raw total is either `0` or at least one minute; this
is what makes the post-loop `> 0` tests and the 2-decimal rounding agree. -/

theorem granular_add {a b : ℚ} (ha : granular a) (hb : granular b) : granular (a + b) := by
  rcases ha with rfl | ⟨k1, hk1, rfl⟩
  · simpa using hb
  · rcases hb with rfl | ⟨k2, hk2, rfl⟩
    · exact Or.inr ⟨k1, hk1, by simp⟩
    · refine Or.inr ⟨k1 + k2, by omega, ?_⟩
      push_cast
      rw [div_add_div_same]

theorem calculateHours_granular (s e : Option ℤ) : granular (calculateHours s e) := by
  rcases s with _ | s
  · exact Or.inl rfl
  rcases e with _ | e
  · exact Or.inl rfl
  show granular (jsMax 0 (((if e - s < 0 then e - s + 24 * 60 else e - s : ℤ) : ℚ) / 60))
  rw [jsMax_eq_max]
  set d2 : ℤ := if e - s < 0 then e - s + 24 * 60 else e - s with hd2
  rcases le_or_lt d2 0 with h | h
  · left
    apply max_eq_left
    rw [div_nonpos_iff]
    exact Or.inr ⟨by exact_mod_cast h, by norm_num⟩
  · refine Or.inr ⟨d2.toNat, by omega, ?_⟩
    rw [max_eq_right (div_nonneg (by exact_mod_cast le_of_lt h) (by norm_num))]
    congr 1
    exact_mod_cast (Int.toNat_of_nonneg (le_of_lt h)).symm

theorem accumStep_granular (w : ℚ) (totals : Fin 7 → ℚ) (fr : FilteredRow)
    (h : ∀ j, granular (totals j)) : ∀ j, granular (accumStep w totals fr j) := by
  intro j
  simp only [accumStep]
  split_ifs with hc
  · rw [Function.update_apply]
    split_ifs with hj
    · exact granular_add (h _) (calculateHours_granular _ _)
    · exact h j
  · exact h j

theorem rawTotalsByDay_granular (rows : List FilteredRow) (w : ℚ) (i : Fin 7) :
    granular (rawTotalsByDay rows w i) := by
  have key : ∀ (l : List FilteredRow) (init : Fin 7 → ℚ), (∀ j, granular (init j)) →
      ∀ j, granular (l.foldl (accumStep w) init j) := by
    intro l
    induction l with
    | nil => exact fun init h j => h j
    | cons fr rest ih =>
      intro init h j
      simp only [List.foldl_cons]
      exact ih _ (accumStep_granular w init fr h) j
  exact key rows _ (fun j => Or.inl rfl) i

theorem toFixed2_pos_of_granular {t : ℚ} (hg : granular t) (ht : 0 < t) : 0 < toFixed2 t := by
  rcases hg with rfl | ⟨k, hk, rfl⟩
  · exact absurd ht (lt_irrefl 0)
  · unfold toFixed2
    have hk1 : (1 : ℚ) ≤ (k : ℚ) := by exact_mod_cast hk
    have h2 : (2 : ℤ) ≤ ⌊(k : ℚ) / 60 * 100 + 1 / 2⌋ := by
      apply Int.le_floor.mpr
      push_cast
      linarith
    have h2q : ((2 : ℤ) : ℚ) ≤ (⌊(k : ℚ) / 60 * 100 + 1 / 2⌋ : ℚ) := by exact_mod_cast h2
    push_cast at h2q
    linarith

/-- The two `> 0` tests the source performs (on the raw total inside the
normalization pass, and on the already-normalized total when writing the
cells) agree. -/
theorem roundedTotals_pos_iff (rows : List FilteredRow) (w : ℚ) (i : Fin 7) :
    0 < roundedTotalsByDay rows w i ↔ 0 < rawTotalsByDay rows w i := by
  simp only [roundedTotalsByDay]
  by_cases h : 0 < rawTotalsByDay rows w i
  · rw [if_pos h]
    exact ⟨fun _ => h, fun _ => toFixed2_pos_of_granular (rawTotalsByDay_granular rows w i) h⟩
  · rw [if_neg h]
    exact ⟨fun hc => absurd hc (lt_irrefl 0), fun hc => absurd hc h⟩

/-! ## C1: lunch row derivation -/

/-- C1: in the pair returned by `transformToDynamics`, the lunch hours
cell of day `d` is exactly `0.5` iff the work hours cell of `d` is
non-empty (equivalently, iff the day's raw work total is positive); then
the comments are the literals `'Lunsj'` / `'Development'`, and otherwise
all four cells of day `d` are empty.  The lunch row is never
independently nonzero. -/
theorem transform_lunch_iff_work :
    ∀ (rows : List FilteredRow) (w : ℚ) (d : Fin 7),
      transformToDynamics rows w = [dynWorkRow rows w, dynLunchRow rows w] ∧
      ((dynLunchRow rows w).hours d = some (1 / 2) ↔ (dynWorkRow rows w).hours d ≠ none) ∧
      ((dynWorkRow rows w).hours d ≠ none ↔ 0 < rawTotalsByDay rows w d) ∧
      ((dynWorkRow rows w).hours d ≠ none →
        (dynLunchRow rows w).comments d = "Lunsj" ∧
        (dynWorkRow rows w).comments d = "Development") ∧
      ((dynWorkRow rows w).hours d = none →
        (dynLunchRow rows w).hours d = none ∧
        (dynWorkRow rows w).comments d = "" ∧ (dynLunchRow rows w).comments d = "") := by
  intro rows w d
  by_cases h : 0 < roundedTotalsByDay rows w d
  · have hraw : 0 < rawTotalsByDay rows w d := (roundedTotals_pos_iff rows w d).mp h
    refine ⟨rfl, ?_, ?_, fun _ => ?_, fun hc => ?_⟩
    · simp [dynWorkRow, dynLunchRow, h]
    · simp [dynWorkRow, h, hraw]
    · exact ⟨by simp [dynLunchRow, h], by simp [dynWorkRow, h]⟩
    · exact absurd hc (by simp [dynWorkRow, h])
  · have hraw : ¬0 < rawTotalsByDay rows w d :=
      fun hc => h ((roundedTotals_pos_iff rows w d).mpr hc)
    refine ⟨rfl, ?_, ?_, fun hc => ?_, fun _ => ?_⟩
    · simp [dynWorkRow, dynLunchRow, h]
    · simp [dynWorkRow, h, hraw]
    · exact absurd hc (by simp [dynWorkRow, h])
    · exact ⟨by simp [dynLunchRow, h], by simp [dynWorkRow, h], by simp [dynLunchRow, h]⟩

/-- Witness for `transform_lunch_iff_work`. -/
theorem transform_lunch_iff_work_witness :
    (dynLunchRow [] (0 : ℚ)).hours 0 = some (1 / 2) ↔
      (dynWorkRow [] (0 : ℚ)).hours 0 ≠ none :=
  (transform_lunch_iff_work [] 0 0).2.1

/-! ## C6: two-decimal rounding -/

/-- C6: positive per-day totals are rounded half-up to exactly 2 decimal
places, zero totals stay exactly 0, and the `09:00 → 23:59` example (raw
total `899/60 = 14.98333…` hours) is exported as `14.98`. -/
theorem transform_rounding_twoDecimals :
    (∀ (rows : List FilteredRow) (w : ℚ) (d : Fin 7),
      (0 < rawTotalsByDay rows w d →
        roundedTotalsByDay rows w d =
          ((⌊rawTotalsByDay rows w d * 100 + 1 / 2⌋ : ℤ) : ℚ) / 100) ∧
      (rawTotalsByDay rows w d = 0 → roundedTotalsByDay rows w d = 0)) ∧
    rawTotalsByDay [⟨⟨some (some 0), some 540, some 1439⟩, 0⟩] 0 0 = 899 / 60 ∧
    (dynWorkRow [⟨⟨some (some 0), some 540, some 1439⟩, 0⟩] 0).hours 0 =
      some (1498 / 100) := by
  have hch : calculateHours (some (540 : ℤ)) (some 1439) = 899 / 60 := by
    simp only [calculateHours]
    norm_num [jsMax]
  have hday : jsDayDiff 0 0 = 0 := by norm_num [jsDayDiff]
  have hone : rawTotalsByDay [⟨⟨some (some 0), some 540, some 1439⟩, 0⟩] 0 0 = 899 / 60 := by
    simp only [rawTotalsByDay, List.foldl_cons, List.foldl_nil, accumStep, hch, hday]
    rw [if_pos (by norm_num : (0 : ℚ) < 899 / 60)]
    rw [show clampDayIndex 0 = (0 : Fin 7) from by decide]
    rw [Function.update_same]
    norm_num
  have hround : roundedTotalsByDay [⟨⟨some (some 0), some 540, some 1439⟩, 0⟩] 0 0 =
      1498 / 100 := by
    simp only [roundedTotalsByDay, hone]
    rw [if_pos (by norm_num : (0 : ℚ) < 899 / 60)]
    unfold toFixed2
    norm_num
  refine ⟨fun rows w d => ⟨fun h => ?_, fun h => ?_⟩, hone, ?_⟩
  · simp only [roundedTotalsByDay, toFixed2, if_pos h]
  · simp only [roundedTotalsByDay, h]
    norm_num
  · simp only [dynWorkRow, hround]
    rw [if_pos (by norm_num : (0 : ℚ) < 1498 / 100)]
    unfold toFixed2
    norm_num

/-- Witness for `transform_rounding_twoDecimals`. -/
theorem transform_rounding_twoDecimals_witness :
    roundedTotalsByDay [⟨⟨some (some 0), some 540, some 1439⟩, 0⟩] 0 0 =
      ((⌊rawTotalsByDay [⟨⟨some (some 0), some 540, some 1439⟩, 0⟩] 0 0 * 100 + 1 / 2⌋ :
        ℤ) : ℚ) / 100 :=
  (transform_rounding_twoDecimals.1 [⟨⟨some (some 0), some 540, some 1439⟩, 0⟩] 0 0).1
    (by rw [transform_rounding_twoDecimals.2.1]; norm_num)

/-! ## C7: total shape of the transformation -/

/-- C7: `transformToDynamics` is total (the embedding is a plain function:
no error path) and always returns exactly the work row then the lunch row
with the fixed metadata constants; on an empty filtered-row list every day
cell of both rows is empty and `0.5` appears nowhere. -/
theorem transform_shape_total :
    ∀ (rows : List FilteredRow) (w : ℚ),
      transformToDynamics rows w = [dynWorkRow rows w, dynLunchRow rows w] ∧
      (transformToDynamics rows w).length = 2 ∧
      (dynWorkRow rows w).LineNum = "1.0000000000000000" ∧
      (dynWorkRow rows w).ACTIVITYNUMBER = "A110015929" ∧
      (dynWorkRow rows w).ProjectDataAreaId = "110" ∧
      (dynWorkRow rows w).ProjId = "11011127" ∧
      (dynLunchRow rows w).LineNum = "2.0000000000000000" ∧
      (dynLunchRow rows w).ACTIVITYNUMBER = "A110015932" ∧
      (dynLunchRow rows w).ProjectDataAreaId = "110" ∧
      (dynLunchRow rows w).ProjId = "11011127" ∧
      (rows = [] → ∀ d : Fin 7,
        (dynWorkRow rows w).hours d = none ∧ (dynWorkRow rows w).comments d = "" ∧
        (dynLunchRow rows w).hours d = none ∧ (dynLunchRow rows w).comments d = "") := by
  intro rows w
  refine ⟨rfl, rfl, rfl, rfl, rfl, rfl, rfl, rfl, rfl, rfl, ?_⟩
  rintro rfl d
  have hz : roundedTotalsByDay [] w d = 0 := by
    simp [roundedTotalsByDay, rawTotalsByDay]
  refine ⟨?_, ?_, ?_, ?_⟩ <;> simp [dynWorkRow, dynLunchRow, hz]

/-- Witness for `transform_shape_total`. -/
theorem transform_shape_total_witness :
    (dynWorkRow ([] : List FilteredRow) 0).hours 0 = none ∧
      (dynWorkRow ([] : List FilteredRow) 0).comments 0 = "" ∧
      (dynLunchRow ([] : List FilteredRow) 0).hours 0 = none ∧
      (dynLunchRow ([] : List FilteredRow) 0).comments 0 = "" :=
  (transform_shape_total [] 0).2.2.2.2.2.2.2.2.2.2 rfl 0

/-! ## C4: strict date validation -/

/-- C4: on any string whose trimmed form matches the `D(D).M(M).YY(YY)`
shape, `parseExcelDate` returns a date exactly when the month is in 1..12
and the day is between 1 and the Gregorian length of that month in that
year (2-digit years read as 2000+year), and otherwise `null` — day 32
never rolls over; `29.02.2024` parses, `29.02.2025` does not. -/
theorem parseExcelDate_strict :
    (∀ (ssfDate : ℚ → Option ℚ) (generic : CellValue → Option ℚ) (s : String)
        (g1 g2 g3 : List Char), matchDMY (jsTrim s) = some (g1, g2, g3) →
      parseExcelDate ssfDate generic (CellValue.str s) =
        if 1 ≤ digitsToNat g2 ∧ digitsToNat g2 ≤ 12 ∧ 1 ≤ digitsToNat g1 ∧
            digitsToNat g1 ≤ gregorianMonthLength
              (if g3.length = 2 then 2000 + (digitsToNat g3 : ℤ) else (digitsToNat g3 : ℤ))
              (digitsToNat g2)
        then some (mkJsDateInstant
              (if g3.length = 2 then 2000 + (digitsToNat g3 : ℤ) else (digitsToNat g3 : ℤ))
              (digitsToNat g2 - 1) (digitsToNat g1))
        else none) ∧
    (∀ sd g, parseExcelDate sd g (CellValue.str "32.01.25") = none) ∧
    (∀ sd g, parseExcelDate sd g (CellValue.str "29.02.2024") =
      some (mkJsDateInstant 2024 1 29)) ∧
    (∀ sd g, parseExcelDate sd g (CellValue.str "29.02.2025") = none) := by
  have hmain : ∀ (ssfDate : ℚ → Option ℚ) (generic : CellValue → Option ℚ) (s : String)
      (g1 g2 g3 : List Char), matchDMY (jsTrim s) = some (g1, g2, g3) →
      parseExcelDate ssfDate generic (CellValue.str s) =
        if 1 ≤ digitsToNat g2 ∧ digitsToNat g2 ≤ 12 ∧ 1 ≤ digitsToNat g1 ∧
            digitsToNat g1 ≤ gregorianMonthLength
              (if g3.length = 2 then 2000 + (digitsToNat g3 : ℤ) else (digitsToNat g3 : ℤ))
              (digitsToNat g2)
        then some (mkJsDateInstant
              (if g3.length = 2 then 2000 + (digitsToNat g3 : ℤ) else (digitsToNat g3 : ℤ))
              (digitsToNat g2 - 1) (digitsToNat g1))
        else none := by
    intro ssfDate generic s g1 g2 g3 hmatch
    have hs : ¬s = "" := by
      rintro rfl
      rw [show matchDMY (jsTrim "") = none from by decide] at hmatch
      exact Option.noConfusion hmatch
    show (if isEmptyCell (CellValue.str s) = true then none else
      match matchDMY (jsTrim s) with
      | some g => validateDMY g
      | none => generic (CellValue.str s)) = _
    rw [if_neg (by simpa [isEmptyCell] using hs), hmatch]
    show validateDMY (g1, g2, g3) = _
    simp only [validateDMY]
    split_ifs <;> first | rfl | omega
  refine ⟨hmain, fun sd g => ?_, fun sd g => ?_, fun sd g => ?_⟩
  · rw [hmain sd g "32.01.25" (['3', '2']) (['0', '1']) (['2', '5']) (by decide)]
    rw [if_neg (by decide)]
  · rw [hmain sd g "29.02.2024" (['2', '9']) (['0', '2']) (['2', '0', '2', '4']) (by decide)]
    rw [if_pos (by decide)]
    exact congrArg some (by congr 1)
  · rw [hmain sd g "29.02.2025" (['2', '9']) (['0', '2']) (['2', '0', '2', '5']) (by decide)]
    rw [if_neg (by decide)]

/-- Witness for `parseExcelDate_strict`. -/
theorem parseExcelDate_strict_witness :
    parseExcelDate (fun _ => none) (fun _ => none) (CellValue.str "27.10.25") =
      some (mkJsDateInstant 2025 9 27) := by
  rw [parseExcelDate_strict.1 (fun _ => none) (fun _ => none) "27.10.25"
    (['2', '7']) (['1', '0']) (['2', '5']) (by decide)]
  rw [if_pos (by decide)]
  exact congrArg some (by congr 1)

/-! ## C5: parseTimeToMinutes range -/

/-- The modelled serial-time decoder only produces results whose total
minute count is at most 1439. -/
theorem ssfParseTimeHM_bound :
    ∀ (q : ℚ) (H M : ℕ), ssfParseTimeHM q = some (H, M) → H * 60 + M ≤ 1439 := by
  intro q H M h
  have hfr0 : (0 : ℚ) ≤ q - ⌊q⌋ := by
    have := Int.floor_le q
    linarith
  have hfr1 : q - ⌊q⌋ < 1 := by
    have := Int.lt_floor_add_one q
    linarith
  have hf : ⌊(86400 : ℚ) * (q - ⌊q⌋)⌋ < 86400 := by
    apply Int.floor_lt.mpr
    push_cast
    nlinarith
  have hf0 : (0 : ℤ) ≤ ⌊(86400 : ℚ) * (q - ⌊q⌋)⌋ :=
    Int.floor_nonneg.mpr (by nlinarith)
  have ht0 : (⌊(86400 : ℚ) * (q - ⌊q⌋)⌋).toNat ≤ 86399 := by omega
  simp only [ssfParseTimeHM] at h
  split_ifs at h with hc hu hcarry <;>
    first
      | exact Option.noConfusion h
      | (rw [Option.some.injEq, Prod.mk.injEq] at h
         omega)

/-- C5: `parseTimeToMinutes` yields `null` or a minute count in
`[0, 1439]`, on every input; in particular every in-range day fraction
yields an in-range minute count. -/
theorem parseTimeToMinutes_range :
    (∀ (v : CellValue) (n : ℤ), parseTimeToMinutes v = some n → 0 ≤ n ∧ n ≤ 1439) ∧
    (∀ q : ℚ, 0 ≤ q → q ≤ 1 →
      ∃ n : ℤ, parseTimeToMinutes (CellValue.num q) = some n ∧ 0 ≤ n ∧ n ≤ 1439) := by
  have hnum : ∀ q : ℚ, parseTimeToMinutes (CellValue.num q) =
      (match ssfParseTimeHM q with
       | some hm => some ((hm.1 : ℤ) * 60 + hm.2)
       | none => if 0 ≤ q ∧ q ≤ 1 then some (jsRound (q * 1440)) else none) :=
    fun q => rfl
  have hssf_total : ∀ q : ℚ, 0 ≤ q → q ≤ 1 → ssfParseTimeHM q ≠ none := by
    intro q hq0 hq1 hssf
    simp only [ssfParseTimeHM] at hssf
    split_ifs at hssf with hc
    rcases hc with hc | hc <;> linarith
  have hmain : ∀ (v : CellValue) (n : ℤ), parseTimeToMinutes v = some n → 0 ≤ n ∧ n ≤ 1439 := by
    intro v n h
    rcases v with _ | _ | q | s | t | _
    · exact Option.noConfusion h
    · exact Option.noConfusion h
    · rw [hnum q] at h
      rcases hssf : ssfParseTimeHM q with _ | hm
      · rw [hssf] at h
        split_ifs at h with hq
        exact absurd hssf (hssf_total q hq.1 hq.2)
      · rw [hssf] at h
        simp only [Option.some.injEq] at h
        obtain ⟨Hh, Mh⟩ := hm
        have hb := ssfParseTimeHM_bound q Hh Mh hssf
        omega
    · by_cases hse : s = ""
      · subst hse
        exact Option.noConfusion h
      · simp only [parseTimeToMinutes, isEmptyCell] at h
        rw [if_neg (by simpa using hse)] at h
        split_ifs at h with hnil
        rcases hm1 : matchHM (String.mk (replaceFirstComma (jsTrim s).data)) with _ | p
        · rcases hm2 : matchHOnly (String.mk (replaceFirstComma (jsTrim s).data)) with _ | g
          · simp only [hm1, hm2] at h
            exact Option.noConfusion h
          · simp only [hm1, hm2] at h
            split_ifs at h with h23 h59
            simp only [Option.some.injEq] at h
            omega
        · simp only [hm1] at h
          split_ifs at h with h23 h59
          simp only [Option.some.injEq] at h
          omega
    · exact Option.noConfusion h
    · exact Option.noConfusion h
  refine ⟨hmain, fun q hq0 hq1 => ?_⟩
  rcases hssf : ssfParseTimeHM q with _ | hm
  · exact absurd hssf (hssf_total q hq0 hq1)
  · obtain ⟨Hh, Mh⟩ := hm
    refine ⟨(Hh : ℤ) * 60 + Mh, ?_, by positivity, ?_⟩
    · rw [hnum q, hssf]
    · have hb := ssfParseTimeHM_bound q Hh Mh hssf
      omega

/-- Witness for `parseTimeToMinutes_range`. -/
theorem parseTimeToMinutes_range_witness :
    parseTimeToMinutes (CellValue.str "22:00") = some 1320 ∧
      0 ≤ (1320 : ℤ) ∧ (1320 : ℤ) ≤ 1439 :=
  ⟨by decide, parseTimeToMinutes_range.1 (CellValue.str "22:00") 1320 (by decide)⟩

/-! ## C8: the row-extraction loop -/

/-- A loop that pushes `f a` except on skipped elements is the
filter-then-map. -/
theorem filterMap_skip_eq_filter_map {α β : Type} (p : α → Bool) (f : α → β) :
    ∀ l : List α, (l.filterMap fun a => if p a then none else some (f a)) =
      (l.filter fun a => !p a).map f := by
  intro l
  induction l with
  | nil => rfl
  | cons a t ih =>
    by_cases h : p a
    · simp [List.filterMap_cons, List.filter_cons, h, ih]
    · simp [List.filterMap_cons, List.filter_cons, h, ih]

/-- C8: the extractor visits every row from `max 12 range.s.r` through the
last occupied row, keeps exactly the rows whose three raw cells are not
all empty (in order), and never stops early — a blank row inside the range
does not truncate extraction; a worksheet with no data rows yields `[]`. -/
theorem readFile_rowExtraction :
    (∀ (ssfDate : ℚ → Option ℚ) (generic : CellValue → Option ℚ) (ws : Worksheet),
      readFileRows ssfDate generic ws =
        ((List.range' (max 12 (ws.refRange.getD (0, 0)).1)
            ((ws.refRange.getD (0, 0)).2 + 1 - max 12 (ws.refRange.getD (0, 0)).1)).filter
          (fun r => !rowIsAllEmpty ws r)).map (extractRow ssfDate generic ws)) ∧
    (∀ (ssfDate : ℚ → Option ℚ) (generic : CellValue → Option ℚ)
        (cells : ℕ → ℕ → CellValue),
      readFileRows ssfDate generic ⟨none, cells⟩ = []) ∧
    readFileRows (fun _ => none) (fun _ => none)
        ⟨some (0, 14), fun r c =>
          if r = 14 ∧ c = 8 then CellValue.str "27.10.25" else CellValue.str ""⟩ =
      [⟨some (some (mkJsDateInstant 2025 9 27)), none, none⟩] := by
  refine ⟨fun sd g ws => ?_, fun sd g cells => rfl, ?_⟩
  · exact filterMap_skip_eq_filter_map (rowIsAllEmpty ws) (extractRow sd g ws) _
  · rfl

/-- Witness for `readFile_rowExtraction`. -/
theorem readFile_rowExtraction_witness :
    readFileRows (fun _ => none) (fun _ => none)
        ⟨some (0, 14), fun _ _ => CellValue.null⟩ =
      ((List.range' 12 3).filter
        (fun r => !rowIsAllEmpty ⟨some (0, 14), fun _ _ => CellValue.null⟩ r)).map
        (extractRow (fun _ => none) (fun _ => none)
          ⟨some (0, 14), fun _ _ => CellValue.null⟩) :=
  readFile_rowExtraction.1 (fun _ => none) (fun _ => none)
    ⟨some (0, 14), fun _ _ => CellValue.null⟩

/-! ## C9: current-week advisory -/

/-- C9: `checkCurrentWeekInFile` returns `(false, null)` on a file with no
valid dates, `(true, null)` when a valid date lands in
`[todayMonday, todayMonday + 7 days)`, and otherwise `(false, msg)` where
`msg` embeds today's ISO week-year and the zero-padded ISO week number. -/
theorem checkCurrentWeek_advisory :
    ∀ (isoW : ℚ → ℕ) (isoY : ℚ → ℤ) (cm : ℚ) (rows : List ParsedRow),
      (getValidDates rows = [] → checkCurrentWeekInFile isoW isoY cm rows = (false, none)) ∧
      ((∃ d ∈ getValidDates rows, cm ≤ d ∧ d < cm + 7 * 1440) →
        checkCurrentWeekInFile isoW isoY cm rows = (true, none)) ∧
      (getValidDates rows ≠ [] →
        (∀ d ∈ getValidDates rows, ¬(cm ≤ d ∧ d < cm + 7 * 1440)) →
        ∃ pre1 post1 pre2 post2 : String,
          checkCurrentWeekInFile isoW isoY cm rows =
            (false, some (pre1 ++ toString (isoY cm) ++ post1)) ∧
          checkCurrentWeekInFile isoW isoY cm rows =
            (false, some (pre2 ++ padStart2 (toString (isoW cm)) ++ post2))) := by
  intro isoW isoY cm rows
  refine ⟨fun h => ?_, fun h => ?_, fun hne hnot => ?_⟩
  · simp [checkCurrentWeekInFile, h]
  · obtain ⟨d, hd, hin⟩ := h
    have hne : ¬((getValidDates rows).isEmpty = true) := by
      intro hc
      rw [List.isEmpty_iff] at hc
      rw [hc] at hd
      exact absurd hd (List.not_mem_nil d)
    have hany : ((getValidDates rows).any fun x =>
        if x = cm ∨ (cm < x ∧ x < cm + 7 * 1440) then true else false) = true := by
      rw [List.any_eq_true]
      exact ⟨d, hd, by rw [if_pos ((window_mem_iff cm d).mpr hin)]⟩
    simp only [checkCurrentWeekInFile]
    rw [if_neg hne, if_pos hany]
  · have hne2 : ¬((getValidDates rows).isEmpty = true) := by
      intro hc
      exact hne (List.isEmpty_iff.mp hc)
    have hany : ¬(((getValidDates rows).any fun x =>
        if x = cm ∨ (cm < x ∧ x < cm + 7 * 1440) then true else false) = true) := by
      rw [List.any_eq_true]
      rintro ⟨d, hd, hcond⟩
      split_ifs at hcond with hp
      exact hnot d hd ((window_mem_iff cm d).mp hp)
    refine ⟨"⚠️ Warning: The current week (",
      "-W" ++ padStart2 (toString (isoW cm)) ++
        ") is not present in the uploaded file. You may have chosen the wrong file.",
      "⚠️ Warning: The current week (" ++ toString (isoY cm) ++ "-W",
      ") is not present in the uploaded file. You may have chosen the wrong file.",
      ?_, ?_⟩ <;>
    · simp only [checkCurrentWeekInFile]
      rw [if_neg hne2, if_neg hany]
      simp [currentWeekWarning, getWeekInfo, String.append_assoc]

/-- Witness for `checkCurrentWeek_advisory`. -/
theorem checkCurrentWeek_advisory_witness :
    checkCurrentWeekInFile (fun _ => 42) (fun _ => 2025) 0 [] = (false, none) :=
  (checkCurrentWeek_advisory (fun _ => 42) (fun _ => 2025) 0 []).1 rfl

end TimeTracking
